import Mathlib

/-!
Shallow embedding of the Skill-Swap backend (Flask + SQLAlchemy) and proofs
about its swap-request and skill-moderation workflows.

The embedding follows the source files:
  * `app/utils/validators.py`        — `sanitize_string`
  * `app/simple_app.py`              — the `User`, `Skill`, `SwapRequest` models
  * `app/routes/swap_request_routes.py` — create / update / delete swap requests
  * `app/routes/skill_routes.py`     — create / update / fetch skills
  * `app/routes/admin_routes.py`     — approve / reject skills

Database state is modelled as lists of records plus autoincrement counters.
Statuses are kept as strings, exactly as the columns store them, so that
"no fifth status is reachable" is a theorem rather than a typing artefact.
HTTP error responses are mapped to the specification's failure kinds:
400 on malformed input → `invalidArgument`, 400 on a duplicate → `conflict`,
403 → `forbidden`, 404 → `notFound`, 400 "Cannot update request with status"
→ `invalidState`, and a commit-time IntegrityError (500) → `internalError`.
-/

namespace SkillSwap

/-- The ASCII whitespace characters removed by Python's `str.strip()`. -/
def pyIsSpace (c : Char) : Bool :=
  c = ' ' || c = '\t' || c = '\n' || c = '\r' || c = '\x0b' || c = '\x0c'

/-- `str.strip()` on a character list: drop whitespace at both ends. -/
def pyStripList (l : List Char) : List Char :=
  ((l.dropWhile pyIsSpace).reverse.dropWhile pyIsSpace).reverse

/-- Python `value.strip()`. -/
def pyStrip (s : String) : String := ⟨pyStripList s.data⟩

/-- Python slicing `s[:n]`. -/
def pyTake (s : String) (n : Nat) : String := ⟨s.data.take n⟩

/-- Python `len(s)`. -/
def pyLen (s : String) : Nat := s.data.length

/-- `validators.sanitize_string`: trim surrounding whitespace, then cut to
`max_length` characters when a nonzero cap is given and exceeded. -/
def sanitize_string (value : String) (max_length : Option Nat) : String :=
  let sanitized := pyStrip value
  match max_length with
  | some n => if n ≠ 0 ∧ n < pyLen sanitized then pyTake sanitized n else sanitized
  | none => sanitized

/-- The fields of the `users` table that the modelled routes consult. -/
structure User where
  id : Nat
  is_banned : Bool
deriving DecidableEq

/-- A row of the `swap_requests` table. -/
structure SwapRequest where
  id : Nat
  requester_id : Nat
  receiver_id : Nat
  skill_offered : String
  skill_wanted : String
  message : String
  acceptance_message : Option String
  status : String
deriving DecidableEq

/-- A row of the `skills` table. -/
structure Skill where
  id : Nat
  name : String
  description : String
  category : String
  status : String
  rejection_reason : Option String
  created_by : Nat
deriving DecidableEq

/-- The persistent store: table contents plus autoincrement counters. -/
structure AppState where
  users : List User
  requests : List SwapRequest
  skills : List Skill
  nextRequestId : Nat
  nextSkillId : Nat
deriving DecidableEq

/-- The specification's failure kinds, as produced by the route handlers. -/
inductive ApiError
  | invalidArgument
  | notFound
  | conflict
  | forbidden
  | invalidState (current : String)
  | internalError
deriving DecidableEq

/-- `SwapRequest.can_be_updated_by`: the actor is requester or receiver. -/
def SwapRequest.can_be_updated_by (r : SwapRequest) (user_id : Nat) : Bool :=
  decide (user_id = r.requester_id ∨ user_id = r.receiver_id)

/-- The duplicate check of `create_swap_request` (its `filter_by` query), as a
predicate on stored rows. -/
def dupPred (u rid : Nat) (so sw : String) (x : SwapRequest) : Prop :=
  x.requester_id = u ∧ x.receiver_id = rid ∧ x.skill_offered = so ∧
  x.skill_wanted = sw ∧ x.status = "pending"

instance (u rid : Nat) (so sw : String) (x : SwapRequest) :
    Decidable (dupPred u rid so sw x) := by
  unfold dupPred
  infer_instance

/-- `create_swap_request` (POST /api/swap-requests). `receiverId` is the raw
JSON field: absent (`none`) or `0` are both falsy in `if not receiver_id`. -/
def create_swap_request (st : AppState) (user_id : Nat) (receiverId : Option Nat)
    (skillOffered skillWanted message : String) :
    Except ApiError (AppState × SwapRequest) :=
  let skill_offered := pyStrip skillOffered
  let skill_wanted := pyStrip skillWanted
  let message := pyStrip message
  if receiverId = none ∨ receiverId = some 0 then .error .invalidArgument
  else
    let receiver_id := receiverId.getD 0
    if skill_offered = "" ∨ skill_wanted = "" then .error .invalidArgument
    else
      match st.users.find? (fun u => decide (u.id = receiver_id ∧ u.is_banned = false)) with
      | none => .error .notFound
      | some _ =>
        if user_id = receiver_id then .error .invalidArgument
        else
          match st.requests.find?
              (fun r => decide (dupPred user_id receiver_id skill_offered skill_wanted r)) with
          | some _ => .error .conflict
          | none =>
            let r : SwapRequest :=
              { id := st.nextRequestId
                requester_id := user_id
                receiver_id := receiver_id
                skill_offered := sanitize_string skill_offered (some 100)
                skill_wanted := sanitize_string skill_wanted (some 100)
                message := sanitize_string message (some 500)
                acceptance_message := none
                status := "pending" }
            .ok ({ st with requests := st.requests ++ [r],
                           nextRequestId := st.nextRequestId + 1 }, r)

/-- `update_swap_request` (PUT /api/swap-requests/<id>). `statusArg` is the raw
JSON `status` field (`none` when absent), `acceptanceMessage` the raw
`acceptanceMessage` field defaulted to the empty string. -/
def update_swap_request (st : AppState) (user_id : Nat) (request_id : Nat)
    (statusArg : Option String) (acceptanceMessage : String) :
    Except ApiError (AppState × SwapRequest) :=
  match st.requests.find? (fun r => decide (r.id = request_id)) with
  | none => .error .notFound
  | some r =>
    if ¬ (r.can_be_updated_by user_id = true) then .error .forbidden
    else
      let acceptance_message := pyStrip acceptanceMessage
      if ¬ (statusArg = some "accepted" ∨ statusArg = some "rejected" ∨
            statusArg = some "cancelled") then .error .invalidArgument
      else
        let new_status := statusArg.getD ""
        if (new_status = "accepted" ∨ new_status = "rejected") ∧ user_id ≠ r.receiver_id
        then .error .forbidden
        else if new_status = "cancelled" ∧ user_id ≠ r.requester_id then .error .forbidden
        else if r.status ≠ "pending" then .error (.invalidState r.status)
        else
          let r' : SwapRequest :=
            { r with
              status := new_status
              acceptance_message :=
                if (new_status = "accepted" ∨ new_status = "rejected") ∧
                    acceptance_message ≠ ""
                then some (sanitize_string acceptance_message (some 500))
                else r.acceptance_message }
          .ok ({ st with
                 requests := st.requests.map (fun x => if x.id = request_id then r' else x) },
               r')

/-- `delete_swap_request` (DELETE /api/swap-requests/<id>). -/
def delete_swap_request (st : AppState) (user_id request_id : Nat) :
    Except ApiError AppState :=
  match st.requests.find? (fun r => decide (r.id = request_id)) with
  | none => .error .notFound
  | some r =>
    if user_id ≠ r.requester_id then .error .forbidden
    else .ok { st with requests := st.requests.filter (fun x => decide (x.id ≠ request_id)) }

/-- `create_skill` (POST /api/skills). The duplicate check runs on the
stripped name; the stored name is additionally capped at 100 characters, and
the `skills.name` column carries a UNIQUE constraint, so a colliding insert
raises IntegrityError at commit time (HTTP 500, modelled `internalError`).
The route writes the string JWT subject into the Integer `created_by`
column; SQLite's INTEGER affinity stores the integer it denotes (subjects
are `str(user.id)`), modelled here as that Nat directly. -/
def create_skill (st : AppState) (user_id : Nat)
    (nameArg descriptionArg categoryArg : String) :
    Except ApiError (AppState × Skill) :=
  let name := pyStrip nameArg
  let description := pyStrip descriptionArg
  let category := pyStrip categoryArg
  if name = "" then .error .invalidArgument
  else
    match st.skills.find? (fun sk => decide (sk.name = name)) with
    | some _ => .error .conflict
    | none =>
      let sk : Skill :=
        { id := st.nextSkillId
          name := sanitize_string name (some 100)
          description := sanitize_string description (some 500)
          category := sanitize_string category (some 50)
          status := "pending"
          rejection_reason := none
          created_by := user_id }
      if ∃ other ∈ st.skills, other.name = sk.name then .error .internalError
      else .ok ({ st with skills := st.skills ++ [sk],
                          nextSkillId := st.nextSkillId + 1 }, sk)

/-- A Python scalar as it appears in the skill routes' creator check: the
`created_by` Integer column loads as an int (or NULL), while
`get_jwt_identity()` yields the token's string subject (tokens are minted
with `identity=str(user.id)`). -/
inductive PyScalar
  | pyInt (n : Nat)
  | pyNone
  | pyStr (s : String)
deriving DecidableEq

/-- Python `==` on these scalars: values of different types are never equal,
so an int (or None) never equals a string. -/
def pyEq : PyScalar → PyScalar → Bool
  | .pyInt a, .pyInt b => a == b
  | .pyStr a, .pyStr b => a == b
  | .pyNone, .pyNone => true
  | _, _ => false

/-- `update_skill` (PUT /api/skills/<id>). Unlike the swap and auth routes,
the skill routes do not cast the JWT identity: `user_id = get_jwt_identity()`
is the token's string subject, while `skill.created_by` is an Integer column
loaded as an int (or None). The guard `skill.created_by != user_id` is
therefore a Python cross-type comparison that is always true, so the handler
answers 403 for every caller, the creator included; the edit body below the
guard is translated from the source but is unreachable for the string
identities the route receives (`update_skill_string_identity_never_ok`).
On its (dead) success path a name collision with another row would violate
the UNIQUE constraint at commit time and roll back (`internalError`). -/
def update_skill (st : AppState) (user_id : PyScalar) (skill_id : Nat)
    (nameArg descriptionArg categoryArg : Option String) :
    Except ApiError (AppState × Skill) :=
  match st.skills.find? (fun sk => decide (sk.id = skill_id)) with
  | none => .error .notFound
  | some sk =>
    if ¬ (pyEq (.pyInt sk.created_by) user_id = true) then .error .forbidden
    else
      let newName :=
        match nameArg with
        | some nm => if pyStrip nm ≠ "" then sanitize_string nm (some 100) else sk.name
        | none => sk.name
      let newDescription :=
        match descriptionArg with
        | some d => sanitize_string d (some 500)
        | none => sk.description
      let newCategory :=
        match categoryArg with
        | some c => sanitize_string c (some 50)
        | none => sk.category
      let sk' := { sk with name := newName, description := newDescription,
                           category := newCategory,
                           status := "pending", rejection_reason := none }
      if ∃ other ∈ st.skills, other.id ≠ skill_id ∧ other.name = sk'.name
      then .error .internalError
      else .ok ({ st with
                  skills := st.skills.map (fun x => if x.id = skill_id then sk' else x) },
                sk')

/-- `approve_skill` (POST /api/admin/skills/<id>/approve). -/
def approve_skill (st : AppState) (skill_id : Nat) :
    Except ApiError (AppState × Skill) :=
  match st.skills.find? (fun sk => decide (sk.id = skill_id)) with
  | none => .error .notFound
  | some sk =>
    let sk' := { sk with status := "approved", rejection_reason := none }
    .ok ({ st with
           skills := st.skills.map (fun x => if x.id = skill_id then sk' else x) },
         sk')

/-- `reject_skill` (POST /api/admin/skills/<id>/reject). `reasonArg` is the raw
JSON `reason` field; the blank check precedes the skill lookup, as in the code. -/
def reject_skill (st : AppState) (skill_id : Nat) (reasonArg : Option String) :
    Except ApiError (AppState × Skill) :=
  let reason := pyStrip (reasonArg.getD "")
  if reason = "" then .error .invalidArgument
  else
    match st.skills.find? (fun sk => decide (sk.id = skill_id)) with
    | none => .error .notFound
    | some sk =>
      let sk' := { sk with status := "rejected",
                           rejection_reason := some (sanitize_string reason (some 500)) }
      .ok ({ st with
             skills := st.skills.map (fun x => if x.id = skill_id then sk' else x) },
           sk')

/-- `get_skill_by_id` (GET /api/skills/<id>): a public, unauthenticated read
that filters by `status == approved` in the query itself. -/
def get_skill_by_id (st : AppState) (skill_id : Nat) : Except ApiError Skill :=
  match st.skills.find? (fun sk => decide (sk.id = skill_id ∧ sk.status = "approved")) with
  | none => .error .notFound
  | some sk => .ok sk

/-- A client call against the swap-request routes, used to model operation
sequences for the temporal claims. -/
inductive SwapOp
  | create (user_id : Nat) (receiverId : Option Nat) (skillOffered skillWanted message : String)
  | update (user_id request_id : Nat) (statusArg : Option String) (acceptanceMessage : String)
  | del (user_id request_id : Nat)

/-- Run one swap-request call; a failed call rolls back, leaving the store as
it was. -/
def applySwapOp (st : AppState) (op : SwapOp) : AppState :=
  match op with
  | .create u rid so sw m =>
    match create_swap_request st u rid so sw m with
    | .ok (st', _) => st'
    | .error _ => st
  | .update u i sArg am =>
    match update_swap_request st u i sArg am with
    | .ok (st', _) => st'
    | .error _ => st
  | .del u i =>
    match delete_swap_request st u i with
    | .ok st' => st'
    | .error _ => st

/-- Run a sequence of swap-request calls. -/
def runSwapOps (st : AppState) (ops : List SwapOp) : AppState :=
  ops.foldl applySwapOp st

/-- A store that holds the given users and no swap requests yet. -/
def initState (users : List User) : AppState :=
  { users := users, requests := [], skills := [], nextRequestId := 1, nextSkillId := 1 }

/-- The four values the `swap_requests.status` column can hold. -/
def validSwapStatuses : List String := ["pending", "accepted", "rejected", "cancelled"]

/-! ### Helper lemmas about `sanitize_string` -/

theorem pyStripList_eq_rdropWhile (l : List Char) :
    pyStripList l = (l.dropWhile pyIsSpace).rdropWhile pyIsSpace := rfl

theorem dropWhile_of_prefix_of_dropWhile {α : Type} {p : α → Bool} {A X : List α}
    (hA : A.dropWhile p = A) (hX : X <+: A) : X.dropWhile p = X := by
  rw [List.dropWhile_eq_self_iff]
  intro hl
  obtain ⟨t, ht⟩ := hX
  have hAl : 0 < A.length := by
    rw [← ht, List.length_append]
    omega
  have hhead : X.get ⟨0, hl⟩ = A.get ⟨0, hAl⟩ := by
    subst ht
    simp only [List.get_eq_getElem]
    exact (List.getElem_append_left hl).symm
  rw [hhead]
  exact List.dropWhile_eq_self_iff.mp hA hAl

theorem pyStripList_idem (l : List Char) : pyStripList (pyStripList l) = pyStripList l := by
  rw [pyStripList_eq_rdropWhile, pyStripList_eq_rdropWhile]
  set p := pyIsSpace
  set A := l.dropWhile p with hA
  have hAself : A.dropWhile p = A := List.dropWhile_idempotent p l
  have hpre : A.rdropWhile p <+: A := List.rdropWhile_prefix p A
  rw [dropWhile_of_prefix_of_dropWhile hAself hpre]
  exact List.rdropWhile_idempotent p A

theorem pyStrip_idem (s : String) : pyStrip (pyStrip s) = pyStrip s := by
  simp only [pyStrip]
  exact congrArg String.mk (pyStripList_idem s.data)

/-- With a nonzero cap, `sanitize_string` is exactly trim-then-truncate. -/
theorem sanitize_string_eq_take {n : Nat} (hn : n ≠ 0) (s : String) :
    sanitize_string s (some n) = pyTake (pyStrip s) n := by
  simp only [sanitize_string]
  split
  · rfl
  · rename_i h
    rw [not_and_or] at h
    rcases h with h | h
    · exact absurd hn (by simpa using h)
    · have hle : pyLen (pyStrip s) ≤ n := by omega
      simp only [pyTake, pyLen] at *
      exact congrArg String.mk (List.take_of_length_le hle).symm

/-- A string already within the cap passes through `sanitize_string`
untouched but for the (idempotent) trim. -/
theorem sanitize_string_of_short {n : Nat} {s : String}
    (hlen : pyLen (pyStrip s) ≤ n) (hn : n ≠ 0) :
    sanitize_string (pyStrip s) (some n) = pyStrip s := by
  rw [sanitize_string_eq_take hn, pyStrip_idem]
  simp only [pyTake, pyLen] at *
  exact congrArg String.mk (List.take_of_length_le hlen)

/-! ### Characterizations of the swap-request operations -/

theorem create_swap_request_ok {st : AppState} {u : Nat} {rid? : Option Nat}
    {so sw m : String} {st' : AppState} {r : SwapRequest}
    (h : create_swap_request st u rid? so sw m = .ok (st', r)) :
    st'.users = st.users ∧ st'.skills = st.skills ∧
    st'.requests = st.requests ++ [r] ∧
    st'.nextRequestId = st.nextRequestId + 1 ∧
    st'.nextSkillId = st.nextSkillId ∧
    r.id = st.nextRequestId ∧
    r.requester_id = u ∧
    r.receiver_id = rid?.getD 0 ∧
    r.skill_offered = sanitize_string (pyStrip so) (some 100) ∧
    r.skill_wanted = sanitize_string (pyStrip sw) (some 100) ∧
    r.message = sanitize_string (pyStrip m) (some 500) ∧
    r.acceptance_message = none ∧
    r.status = "pending" ∧
    st.requests.find?
      (fun x => decide (dupPred u (rid?.getD 0) (pyStrip so) (pyStrip sw) x)) = none := by
  simp only [create_swap_request, dupPred] at h ⊢
  split at h
  · simp at h
  · split at h
    · simp at h
    · split at h
      · simp at h
      · split at h
        · simp at h
        · split at h
          · simp at h
          · rename_i hfind
            obtain ⟨hst, hr⟩ := by simpa using h
            subst hst hr
            refine ⟨rfl, rfl, rfl, rfl, rfl, rfl, rfl, rfl, rfl, rfl, rfl, rfl, rfl, hfind⟩

theorem update_swap_request_ok {st : AppState} {u i : Nat} {sArg : Option String}
    {am : String} {st' : AppState} {r' : SwapRequest}
    (h : update_swap_request st u i sArg am = .ok (st', r')) :
    ∃ r, st.requests.find? (fun x => decide (x.id = i)) = some r ∧
      r.status = "pending" ∧
      (sArg = some "accepted" ∨ sArg = some "rejected" ∨ sArg = some "cancelled") ∧
      r'.status = sArg.getD "" ∧
      ((r'.status = "accepted" ∨ r'.status = "rejected") → u = r.receiver_id) ∧
      (r'.status = "cancelled" → u = r.requester_id) ∧
      r'.id = r.id ∧ r'.requester_id = r.requester_id ∧ r'.receiver_id = r.receiver_id ∧
      r'.skill_offered = r.skill_offered ∧ r'.skill_wanted = r.skill_wanted ∧
      r'.message = r.message ∧
      r'.acceptance_message =
        (if (sArg.getD "" = "accepted" ∨ sArg.getD "" = "rejected") ∧ pyStrip am ≠ ""
         then some (sanitize_string (pyStrip am) (some 500))
         else r.acceptance_message) ∧
      st'.users = st.users ∧ st'.skills = st.skills ∧
      st'.nextRequestId = st.nextRequestId ∧ st'.nextSkillId = st.nextSkillId ∧
      st'.requests = st.requests.map (fun x => if x.id = i then r' else x) := by
  simp only [update_swap_request] at h
  split at h
  · simp at h
  · rename_i r hfind
    refine ⟨r, hfind, ?_⟩
    split at h
    · simp at h
    · split at h
      · simp at h
      · rename_i hcan hvalid
        split at h
        · simp at h
        · split at h
          · simp at h
          · split at h
            · simp at h
            · rename_i hrole1 hrole2 hpending
              obtain ⟨hst, hr⟩ := by simpa using h
              subst hst hr
              push_neg at hpending
              refine ⟨hpending, not_not.mp hvalid, rfl, ?_, ?_, rfl, rfl, rfl, rfl, rfl,
                rfl, rfl, rfl, rfl, rfl, rfl, rfl⟩
              · intro hs
                by_contra hne
                exact hrole1 ⟨hs, hne⟩
              · intro hs
                by_contra hne
                exact hrole2 ⟨hs, hne⟩

theorem delete_swap_request_ok {st : AppState} {u i : Nat} {st' : AppState}
    (h : delete_swap_request st u i = .ok st') :
    st'.users = st.users ∧ st'.skills = st.skills ∧
    st'.nextRequestId = st.nextRequestId ∧ st'.nextSkillId = st.nextSkillId ∧
    st'.requests = st.requests.filter (fun x => decide (x.id ≠ i)) := by
  simp only [delete_swap_request] at h
  split at h
  · simp at h
  · split at h
    · simp at h
    · obtain hst := by simpa using h
      subst hst
      refine ⟨rfl, rfl, rfl, rfl, ?_⟩
      simp

/-! ### The swap-request status machine (claim C2) -/

/-- Well-formedness of the `swap_requests` table: every row's status is one of
the four legal values, every row id is below the autoincrement counter, and
row ids are pairwise distinct. -/
def ReqInv (st : AppState) : Prop :=
  (∀ r ∈ st.requests, r.status ∈ validSwapStatuses ∧ r.id < st.nextRequestId) ∧
  st.requests.Pairwise (fun a b => a.id ≠ b.id)

theorem pairwise_ne_id_unique {l : List SwapRequest}
    (h : l.Pairwise (fun a b => a.id ≠ b.id)) {a b : SwapRequest}
    (ha : a ∈ l) (hb : b ∈ l) (hid : a.id = b.id) : a = b := by
  induction l with
  | nil => cases ha
  | cons x t ih =>
    obtain ⟨hx, ht⟩ := List.pairwise_cons.mp h
    cases ha with
    | head =>
      cases hb with
      | head => rfl
      | tail _ hb' => exact absurd hid (hx b hb')
    | tail _ ha' =>
      cases hb with
      | head => exact absurd hid.symm (hx a ha')
      | tail _ hb' => exact ih ht ha' hb'

theorem reqInv_apply {st : AppState} (op : SwapOp) (h : ReqInv st) :
    ReqInv (applySwapOp st op) := by
  obtain ⟨hval, hids⟩ := h
  cases op with
  | create u rid so sw m =>
    simp only [applySwapOp]
    split
    · rename_i st' r hok
      obtain ⟨_, _, hreq, hnext, _, hid, _, _, _, _, _, _, hstat, _⟩ :=
        create_swap_request_ok hok
      constructor
      · intro x hx
        rw [hreq] at hx
        rcases List.mem_append.mp hx with hx | hx
        · obtain ⟨h1, h2⟩ := hval x hx
          exact ⟨h1, by omega⟩
        · rcases List.mem_singleton.mp hx with rfl
          refine ⟨by rw [hstat]; simp [validSwapStatuses], by omega⟩
      · rw [hreq, List.pairwise_append]
        refine ⟨hids, List.pairwise_singleton _ _, ?_⟩
        intro a ha b hb
        rcases List.mem_singleton.mp hb with rfl
        have := (hval a ha).2
        omega
    · exact ⟨hval, hids⟩
  | update u i sArg am =>
    simp only [applySwapOp]
    split
    · rename_i st' r' hok
      obtain ⟨r, hfind, hpend, hvalid, hstat, _, _, hid, _, _, _, _, _, _, _, _,
        hnext, _, hreq⟩ := update_swap_request_ok hok
      have hrid : r.id = i := by
        have := List.find?_some hfind
        simpa using this
      have hrmem : r ∈ st.requests := List.mem_of_find?_eq_some hfind
      have hr'stat : r'.status ∈ validSwapStatuses := by
        rcases hvalid with h | h | h <;> rw [hstat, h] <;> simp [validSwapStatuses]
      have hidmap : ∀ x : SwapRequest, ((fun x => if x.id = i then r' else x) x).id = x.id := by
        intro x
        by_cases hx : x.id = i
        · simp [hx, hid, hrid]
        · simp [hx]
      constructor
      · intro x hx
        rw [hreq] at hx
        obtain ⟨y, hy, hyx⟩ := List.mem_map.mp hx
        by_cases hyi : y.id = i
        · simp only [hyi, if_pos] at hyx
          rw [← hyx]
          refine ⟨hr'stat, ?_⟩
          rw [hnext, hid, hrid, ← hyi]
          exact (hval y hy).2
        · simp only [hyi, if_neg, ite_false] at hyx
          rw [← hyx]
          obtain ⟨h1, h2⟩ := hval y hy
          exact ⟨h1, by rw [hnext]; exact h2⟩
      · rw [hreq]
        rw [List.pairwise_map]
        refine hids.imp_of_mem ?_
        intro a b _ _ hab
        rw [hidmap a, hidmap b]
        exact hab
    · exact ⟨hval, hids⟩
  | del u i =>
    simp only [applySwapOp]
    split
    · rename_i st' hok
      obtain ⟨_, _, hnext, _, hreq⟩ := delete_swap_request_ok hok
      constructor
      · intro x hx
        rw [hreq] at hx
        obtain ⟨h1, h2⟩ := hval x (List.mem_of_mem_filter hx)
        exact ⟨h1, by rw [hnext]; exact h2⟩
      · rw [hreq]
        exact hids.sublist (List.filter_sublist _)
    · exact ⟨hval, hids⟩

/-- The store pins down request `r`: any row carrying `r`'s id is `r` itself,
and `r`'s id stays below the autoincrement counter (so it is never reissued). -/
def Tracks (st : AppState) (r : SwapRequest) : Prop :=
  (∀ x ∈ st.requests, x.id = r.id → x = r) ∧ r.id < st.nextRequestId

theorem tracks_apply {st : AppState} {r : SwapRequest} (op : SwapOp)
    (hnp : r.status ≠ "pending") (h : Tracks st r) : Tracks (applySwapOp st op) r := by
  obtain ⟨huniq, hlt⟩ := h
  cases op with
  | create u rid so sw m =>
    simp only [applySwapOp]
    split
    · rename_i st' rn hok
      obtain ⟨_, _, hreq, hnext, _, hid, _⟩ := create_swap_request_ok hok
      constructor
      · intro x hx hxid
        rw [hreq] at hx
        rcases List.mem_append.mp hx with hx | hx
        · exact huniq x hx hxid
        · rcases List.mem_singleton.mp hx with rfl
          rw [hid] at hxid
          omega
      · omega
    · exact ⟨huniq, hlt⟩
  | update u i sArg am =>
    simp only [applySwapOp]
    split
    · rename_i st' r' hok
      obtain ⟨rf, hfind, hpend, hvalid, hstat, _, _, hid, _, _, _, _, _, _, _, _,
        hnext, _, hreq⟩ := update_swap_request_ok hok
      have hrfid : rf.id = i := by simpa using List.find?_some hfind
      have hrfmem : rf ∈ st.requests := List.mem_of_find?_eq_some hfind
      have hri : rf.id ≠ r.id := by
        intro hcontra
        have := huniq rf hrfmem hcontra
        rw [this] at hpend
        exact hnp hpend
      constructor
      · intro x hx hxid
        rw [hreq] at hx
        obtain ⟨y, hy, hyx⟩ := List.mem_map.mp hx
        by_cases hyi : y.id = i
        · simp only [hyi, if_pos] at hyx
          rw [← hyx] at hxid
          rw [hid, hrfid] at hxid
          exact absurd (hrfid.trans hxid) hri
        · simp only [hyi, if_neg, ite_false] at hyx
          rw [← hyx] at hxid ⊢
          exact huniq y hy hxid
      · omega
    · exact ⟨huniq, hlt⟩
  | del u i =>
    simp only [applySwapOp]
    split
    · rename_i st' hok
      obtain ⟨_, _, hnext, _, hreq⟩ := delete_swap_request_ok hok
      constructor
      · intro x hx hxid
        rw [hreq] at hx
        exact huniq x (List.mem_of_mem_filter hx) hxid
      · omega
    · exact ⟨huniq, hlt⟩

theorem reqInv_run {st : AppState} (ops : List SwapOp) (h : ReqInv st) :
    ReqInv (runSwapOps st ops) := by
  induction ops generalizing st with
  | nil => exact h
  | cons op t ih => exact ih (reqInv_apply op h)

theorem tracks_run {st : AppState} {r : SwapRequest} (ops : List SwapOp)
    (hnp : r.status ≠ "pending") (h : Tracks st r) : Tracks (runSwapOps st ops) r := by
  induction ops generalizing st with
  | nil => exact h
  | cons op t ih => exact ih (tracks_apply op hnp h)

/-- One call changes a surviving row either not at all, or from `pending` to
one of the three terminal statuses. -/
theorem step_change {st : AppState} (op : SwapOp) {r r' : SwapRequest}
    (hinv : ReqInv st) (hr : r ∈ st.requests) (hr' : r' ∈ (applySwapOp st op).requests)
    (hid : r'.id = r.id) :
    r' = r ∨ (r.status = "pending" ∧
      r'.status ∈ (["accepted", "rejected", "cancelled"] : List String)) := by
  obtain ⟨hval, hids⟩ := hinv
  cases op with
  | create u rid so sw m =>
    simp only [applySwapOp] at hr'
    split at hr'
    · rename_i st' rn hok
      obtain ⟨_, _, hreq, _, _, hnid, _⟩ := create_swap_request_ok hok
      rw [hreq] at hr'
      rcases List.mem_append.mp hr' with hx | hx
      · exact Or.inl (pairwise_ne_id_unique hids hx hr hid)
      · rcases List.mem_singleton.mp hx with rfl
        have := (hval r hr).2
        rw [hnid] at hid
        omega
    · exact Or.inl (pairwise_ne_id_unique hids hr' hr hid)
  | update u i sArg am =>
    simp only [applySwapOp] at hr'
    split at hr'
    · rename_i st' rnew hok
      obtain ⟨rf, hfind, hpend, hvalid, hstat, _, _, hnid, _, _, _, _, _, _, _, _,
        _, _, hreq⟩ := update_swap_request_ok hok
      have hrfid : rf.id = i := by simpa using List.find?_some hfind
      have hrfmem : rf ∈ st.requests := List.mem_of_find?_eq_some hfind
      rw [hreq] at hr'
      obtain ⟨y, hy, hyx⟩ := List.mem_map.mp hr'
      by_cases hyi : y.id = i
      · simp only [hyi, if_pos] at hyx
        rw [← hyx] at hid
        have hrfr : rf = r := by
          apply pairwise_ne_id_unique hids hrfmem hr
          rw [← hnid]
          exact hid
        right
        constructor
        · rw [← hrfr]
          exact hpend
        · rw [← hyx, hstat]
          rcases hvalid with h | h | h <;> rw [h] <;> simp
      · simp only [hyi, if_neg, ite_false] at hyx
        rw [← hyx] at hid ⊢
        exact Or.inl (pairwise_ne_id_unique hids hy hr hid)
    · exact Or.inl (pairwise_ne_id_unique hids hr' hr hid)
  | del u i =>
    simp only [applySwapOp] at hr'
    split at hr'
    · rename_i st' hok
      obtain ⟨_, _, _, _, hreq⟩ := delete_swap_request_ok hok
      rw [hreq] at hr'
      exact Or.inl (pairwise_ne_id_unique hids (List.mem_of_mem_filter hr') hr hid)
    · exact Or.inl (pairwise_ne_id_unique hids hr' hr hid)

theorem reqInv_init (users : List User) : ReqInv (initState users) := by
  constructor
  · intro r hr
    cases hr
  · exact List.Pairwise.nil

/-- Claim C2: starting from a store with no swap requests, every reachable
row status lies in {pending, accepted, rejected, cancelled}; a row whose
status has left `pending` is never modified by any later operation (so it
never returns to `pending` nor takes any other value); and a single operation
either leaves a surviving row unchanged or moves it from `pending` to exactly
one of `accepted`, `rejected`, `cancelled`. -/
theorem C2_status_machine (users : List User) (ops more : List SwapOp) :
    (∀ r ∈ (runSwapOps (initState users) ops).requests, r.status ∈ validSwapStatuses) ∧
    (∀ r r', r ∈ (runSwapOps (initState users) ops).requests → r.status ≠ "pending" →
      r' ∈ (runSwapOps (initState users) (ops ++ more)).requests → r'.id = r.id →
      r' = r) ∧
    (∀ op r r', r ∈ (runSwapOps (initState users) ops).requests →
      r' ∈ (runSwapOps (initState users) (ops ++ [op])).requests → r'.id = r.id →
      r' = r ∨ (r.status = "pending" ∧
        r'.status ∈ (["accepted", "rejected", "cancelled"] : List String))) := by
  have hinv : ReqInv (runSwapOps (initState users) ops) :=
    reqInv_run ops (reqInv_init users)
  have happ : ∀ more' : List SwapOp, runSwapOps (initState users) (ops ++ more') =
      runSwapOps (runSwapOps (initState users) ops) more' := by
    intro more'
    simp [runSwapOps, List.foldl_append]
  refine ⟨?_, ?_, ?_⟩
  · intro r hr
    exact (hinv.1 r hr).1
  · intro r r' hr hnp hr' hid
    have htr : Tracks (runSwapOps (initState users) ops) r := by
      refine ⟨?_, (hinv.1 r hr).2⟩
      intro x hx hxid
      exact pairwise_ne_id_unique hinv.2 hx hr hxid
    have hfin := tracks_run more hnp htr
    rw [happ more] at hr'
    exact hfin.1 r' hr' hid
  · intro op r r' hr hr' hid
    rw [happ [op]] at hr'
    exact step_change op hinv hr hr' hid

/-- A fixed two-user store used to instantiate the universally quantified
claims at concrete inputs. -/
def demoUsers : List User := [⟨1, false⟩, ⟨2, false⟩]

def demoOps : List SwapOp :=
  [.create 1 (some 2) "Python" "Guitar" "", .update 2 1 (some "accepted") ""]

def demoMore : List SwapOp := [.update 2 1 (some "rejected") ""]

def demoAccepted : SwapRequest :=
  { id := 1, requester_id := 1, receiver_id := 2, skill_offered := "Python",
    skill_wanted := "Guitar", message := "", acceptance_message := none,
    status := "accepted" }

theorem C2_status_machine_witness :
    demoAccepted.status ∈ validSwapStatuses ∧ demoAccepted = demoAccepted := by
  refine ⟨(C2_status_machine demoUsers demoOps demoMore).1 demoAccepted (by decide), ?_⟩
  exact (C2_status_machine demoUsers demoOps demoMore).2.1 demoAccepted demoAccepted
    (by decide) (by decide) (by decide) (by decide)

/-- A store holding a single already-accepted request between users 1 and 2. -/
def c3State : AppState :=
  { users := demoUsers, requests := [demoAccepted], skills := [],
    nextRequestId := 2, nextSkillId := 1 }

/-- Claim C3 counterexample: on a non-pending request, an actor other than the
one authorized for the target does NOT get InvalidState: the requester (user 1)
calling Transition with target `accepted` on an already-accepted request gets
Forbidden, because the role check precedes the state check. -/
theorem C3_counterexample :
    update_swap_request c3State 1 1 (some "accepted") "" = .error .forbidden ∧
    ApiError.forbidden ≠ ApiError.invalidState "accepted" := by
  constructor
  · rfl
  · decide

/-- Claim C3 (amended): Transition on a non-pending request fails with
InvalidState reporting the current status, and leaves the store unchanged,
provided the actor is the one authorized for the target status (the receiver
for `accepted`/`rejected`, the requester for `cancelled`); any other actor
fails Forbidden before the state check is reached. -/
theorem C3_invalid_state (st : AppState) (u i : Nat) (sArg : Option String)
    (am : String) (r : SwapRequest)
    (hfind : st.requests.find? (fun x => decide (x.id = i)) = some r)
    (hnp : r.status ≠ "pending")
    (hauth : ((sArg = some "accepted" ∨ sArg = some "rejected") ∧ u = r.receiver_id) ∨
             (sArg = some "cancelled" ∧ u = r.requester_id)) :
    update_swap_request st u i sArg am = .error (.invalidState r.status) ∧
    applySwapOp st (.update u i sArg am) = st := by
  have hmain : update_swap_request st u i sArg am = .error (.invalidState r.status) := by
    rcases hauth with ⟨hs, hu⟩ | ⟨hs, hu⟩
    · rcases hs with hs | hs <;> subst hs <;> subst hu <;>
        simp [update_swap_request, hfind, SwapRequest.can_be_updated_by, hnp]
    · subst hs
      subst hu
      simp [update_swap_request, hfind, SwapRequest.can_be_updated_by, hnp]
  refine ⟨hmain, ?_⟩
  simp [applySwapOp, hmain]

theorem C3_invalid_state_witness :
    update_swap_request c3State 2 1 (some "rejected") "" =
      .error (.invalidState demoAccepted.status) ∧
    applySwapOp c3State (.update 2 1 (some "rejected") "") = c3State :=
  C3_invalid_state c3State 2 1 (some "rejected") "" demoAccepted rfl (by decide)
    (Or.inl ⟨Or.inr rfl, rfl⟩)

/-- Claim C4: whatever the request's current status, a Transition with target
`accepted`/`rejected` by any actor other than the receiver fails Forbidden
(either as non-participant or at the role check), and a Transition with target
`cancelled` by any actor other than the requester fails Forbidden. -/
theorem C4_role_forbidden (st : AppState) (u i : Nat) (sArg : Option String)
    (am : String) (r : SwapRequest)
    (hfind : st.requests.find? (fun x => decide (x.id = i)) = some r) :
    ((sArg = some "accepted" ∨ sArg = some "rejected") → u ≠ r.receiver_id →
      update_swap_request st u i sArg am = .error .forbidden) ∧
    (sArg = some "cancelled" → u ≠ r.requester_id →
      update_swap_request st u i sArg am = .error .forbidden) := by
  constructor
  · intro hs hne
    by_cases hcan : r.can_be_updated_by u = true
    · rcases hs with hs | hs <;> subst hs <;>
        simp [update_swap_request, hfind, hcan, hne]
    · simp [update_swap_request, hfind, hcan]
  · intro hs hne
    subst hs
    by_cases hcan : r.can_be_updated_by u = true
    · simp [update_swap_request, hfind, hcan, hne]
    · simp [update_swap_request, hfind, hcan]

/-- A store holding a single pending request from user 1 to user 2. -/
def demoPending : SwapRequest :=
  { id := 1, requester_id := 1, receiver_id := 2, skill_offered := "Python",
    skill_wanted := "Guitar", message := "", acceptance_message := none,
    status := "pending" }

def c4State : AppState :=
  { users := demoUsers, requests := [demoPending], skills := [],
    nextRequestId := 2, nextSkillId := 1 }

theorem C4_role_forbidden_witness :
    update_swap_request c4State 1 1 (some "accepted") "" = .error .forbidden ∧
    update_swap_request c4State 2 1 (some "cancelled") "" = .error .forbidden :=
  ⟨(C4_role_forbidden c4State 1 1 (some "accepted") "" demoPending rfl).1
      (Or.inl rfl) (by decide),
   (C4_role_forbidden c4State 2 1 (some "cancelled") "" demoPending rfl).2
      rfl (by decide)⟩

/-- Claim C9: a successful Transition changes only the row's `status` and —
for accept/reject with a nonblank message — its `acceptance_message`;
requester, receiver, both skill strings, the original message and the id are
unchanged, a cancel or a blank acceptance message leaves `acceptance_message`
as it was, and every other row of the table is untouched. -/
theorem C9_frame (st : AppState) (u i : Nat) (sArg : Option String) (am : String)
    (st' : AppState) (r r' : SwapRequest)
    (hfind : st.requests.find? (fun x => decide (x.id = i)) = some r)
    (h : update_swap_request st u i sArg am = .ok (st', r')) :
    r'.id = r.id ∧ r'.requester_id = r.requester_id ∧ r'.receiver_id = r.receiver_id ∧
    r'.skill_offered = r.skill_offered ∧ r'.skill_wanted = r.skill_wanted ∧
    r'.message = r.message ∧
    (((sArg = some "accepted" ∨ sArg = some "rejected") ∧ pyStrip am ≠ "") →
      r'.acceptance_message = some (sanitize_string (pyStrip am) (some 500))) ∧
    (sArg = some "cancelled" → r'.acceptance_message = r.acceptance_message) ∧
    (pyStrip am = "" → r'.acceptance_message = r.acceptance_message) ∧
    st'.requests = st.requests.map (fun x => if x.id = i then r' else x) := by
  obtain ⟨r0, hfind0, hpend, hvalid, hstat, _, _, hid, hreqid, hrecv, hso, hsw, hmsg,
    hacc, _, _, _, _, hreq⟩ := update_swap_request_ok h
  rw [hfind0] at hfind
  injection hfind with hr0
  subst hr0
  refine ⟨hid, hreqid, hrecv, hso, hsw, hmsg, ?_, ?_, ?_, hreq⟩
  · rintro ⟨hs | hs, hne⟩ <;> subst hs <;> rw [hacc] <;> simp [hne]
  · intro hs
    subst hs
    rw [hacc]
    simp
  · intro ham
    rw [hacc]
    simp [ham]

def demoAcceptedMsg : SwapRequest :=
  { demoPending with status := "accepted", acceptance_message := some "Sure" }

def c9State : AppState :=
  { users := demoUsers, requests := [demoAcceptedMsg], skills := [],
    nextRequestId := 2, nextSkillId := 1 }

theorem C9_frame_witness :
    demoAcceptedMsg.id = demoPending.id ∧
    demoAcceptedMsg.requester_id = demoPending.requester_id ∧
    demoAcceptedMsg.receiver_id = demoPending.receiver_id ∧
    demoAcceptedMsg.skill_offered = demoPending.skill_offered ∧
    demoAcceptedMsg.skill_wanted = demoPending.skill_wanted ∧
    demoAcceptedMsg.message = demoPending.message ∧
    (((some "accepted" = some "accepted" ∨ some "accepted" = some "rejected") ∧
        pyStrip " Sure " ≠ "") →
      demoAcceptedMsg.acceptance_message =
        some (sanitize_string (pyStrip " Sure ") (some 500))) ∧
    ((some "accepted" : Option String) = some "cancelled" →
      demoAcceptedMsg.acceptance_message = demoPending.acceptance_message) ∧
    (pyStrip " Sure " = "" →
      demoAcceptedMsg.acceptance_message = demoPending.acceptance_message) ∧
    c9State.requests = c4State.requests.map (fun x => if x.id = 1 then demoAcceptedMsg else x) :=
  C9_frame c4State 2 1 (some "accepted") " Sure " c9State demoPending demoAcceptedMsg
    rfl rfl

/-! ### Claim C1: uniqueness of pending tuples -/

/-- Two rows carry the same `(requester, receiver, skill_offered, skill_wanted)`
tuple. -/
def sameTuple (a b : SwapRequest) : Prop :=
  a.requester_id = b.requester_id ∧ a.receiver_id = b.receiver_id ∧
  a.skill_offered = b.skill_offered ∧ a.skill_wanted = b.skill_wanted

instance (a b : SwapRequest) : Decidable (sameTuple a b) := by
  unfold sameTuple
  infer_instance

/-- No two pending rows of the table share the same tuple. -/
def PendingUnique (l : List SwapRequest) : Prop :=
  l.Pairwise (fun a b => a.status = "pending" → b.status = "pending" → ¬ sameTuple a b)

/-- Claim C1 (amended): restricted to calls whose trimmed skill strings fit
the 100-character column (so the stored strings equal the ones the duplicate
check queried), Create fails with Conflict whenever a pending row with the
identical tuple exists and the preceding validations pass; otherwise a
successful Create appends exactly one new pending row with that tuple, and
uniqueness of pending tuples is preserved. -/
theorem C1_pending_unique (st : AppState) (u rid : Nat) (so sw m : String)
    (hlen1 : pyLen (pyStrip so) ≤ 100) (hlen2 : pyLen (pyStrip sw) ≤ 100) :
    ((∃ x ∈ st.requests, dupPred u rid (pyStrip so) (pyStrip sw) x) →
      rid ≠ 0 → pyStrip so ≠ "" → pyStrip sw ≠ "" →
      (∃ us ∈ st.users, us.id = rid ∧ us.is_banned = false) → u ≠ rid →
      create_swap_request st u (some rid) so sw m = .error .conflict) ∧
    (∀ st' r, create_swap_request st u (some rid) so sw m = .ok (st', r) →
      st'.requests = st.requests ++ [r] ∧ r.status = "pending" ∧
      r.requester_id = u ∧ r.receiver_id = rid ∧
      r.skill_offered = pyStrip so ∧ r.skill_wanted = pyStrip sw ∧
      (¬ ∃ x ∈ st.requests, dupPred u rid (pyStrip so) (pyStrip sw) x) ∧
      (PendingUnique st.requests → PendingUnique st'.requests)) := by
  constructor
  · intro hdup hrid h2 h3 hrecv hne
    obtain ⟨us, hus, husid, husban⟩ := hrecv
    have hufind : (st.users.find? (fun x => decide (x.id = rid ∧ x.is_banned = false))).isSome := by
      rw [List.find?_isSome]
      exact ⟨us, hus, by simp [husid, husban]⟩
    obtain ⟨u0, hu0⟩ := Option.isSome_iff_exists.mp hufind
    have hu0' : st.users.find? (fun x => decide (x.id = rid) && !x.is_banned) = some u0 := by
      simpa using hu0
    have hdfind : (st.requests.find?
        (fun x => decide (dupPred u rid (pyStrip so) (pyStrip sw) x))).isSome := by
      rw [List.find?_isSome]
      obtain ⟨x, hx, hdx⟩ := hdup
      exact ⟨x, hx, by simp [hdx]⟩
    obtain ⟨d0, hd0⟩ := Option.isSome_iff_exists.mp hdfind
    simp [create_swap_request, hrid, h2, h3, hu0', hne, hd0]
  · intro st' r hok
    obtain ⟨_, _, hreq, _, _, _, hrequ, hrecv, hso, hsw, _, _, hstat, hfind⟩ :=
      create_swap_request_ok hok
    have hso' : r.skill_offered = pyStrip so := by
      rw [hso]
      exact sanitize_string_of_short hlen1 (by decide)
    have hsw' : r.skill_wanted = pyStrip sw := by
      rw [hsw]
      exact sanitize_string_of_short hlen2 (by decide)
    have hrecv' : r.receiver_id = rid := by simpa using hrecv
    have hnodup : ∀ x ∈ st.requests, ¬ dupPred u rid (pyStrip so) (pyStrip sw) x := by
      simpa using hfind
    refine ⟨hreq, hstat, hrequ, hrecv', hso', hsw', ?_, ?_⟩
    · rintro ⟨x, hx, hdx⟩
      exact hnodup x hx hdx
    · intro huniq
      rw [hreq]
      rw [PendingUnique, List.pairwise_append]
      refine ⟨huniq, List.pairwise_singleton _ _, ?_⟩
      intro a ha b hb
      rcases List.mem_singleton.mp hb with rfl
      intro hap _ hsame
      apply hnodup a ha
      obtain ⟨t1, t2, t3, t4⟩ := hsame
      exact ⟨by rw [t1, hrequ], by rw [t2, hrecv'], by rw [t3, hso'],
        by rw [t4, hsw'], hap⟩

/-- A 101-character skill string; its stored form is cut to 100 characters. -/
def longSkill : String := ⟨List.replicate 101 'a'⟩

def storedSkill : String := ⟨List.replicate 100 'a'⟩

def c1Request : SwapRequest :=
  { id := 1, requester_id := 1, receiver_id := 2, skill_offered := storedSkill,
    skill_wanted := "x", message := "", acceptance_message := none,
    status := "pending" }

def c1State : AppState :=
  { users := demoUsers, requests := [c1Request], skills := [],
    nextRequestId := 2, nextSkillId := 1 }

def c1New : SwapRequest :=
  { id := 2, requester_id := 1, receiver_id := 2, skill_offered := storedSkill,
    skill_wanted := "x", message := "", acceptance_message := none,
    status := "pending" }

/-- Claim C1 counterexample: the duplicate check queries the stripped input,
but the row stores the 100-character truncation. With a 101-character skill
string, Create succeeds although a pending row with the identical stored tuple
already exists, leaving two pending rows with the same tuple. -/
theorem C1_counterexample :
    create_swap_request c1State 1 (some 2) longSkill "x" "" =
      .ok ({ c1State with requests := [c1Request, c1New], nextRequestId := 3 }, c1New) ∧
    c1Request.status = "pending" ∧ c1New.status = "pending" ∧
    sameTuple c1Request c1New ∧
    ¬ PendingUnique [c1Request, c1New] := by
  refine ⟨rfl, rfl, rfl, by decide, ?_⟩
  intro h
  rw [PendingUnique, List.pairwise_cons] at h
  exact h.1 c1New (List.mem_singleton.mpr rfl) rfl rfl (by decide)

theorem C1_pending_unique_witness :
    create_swap_request (initState demoUsers) 1 (some 2) " Python " "Guitar" "" =
      .error .conflict ∨
    (PendingUnique (initState demoUsers).requests →
      PendingUnique (runSwapOps (initState demoUsers) [.create 1 (some 2) " Python " "Guitar" ""]).requests) := by
  have h := (C1_pending_unique (initState demoUsers) 1 2 " Python " "Guitar" ""
    (by decide) (by decide)).2
  right
  intro hu
  have := h (runSwapOps (initState demoUsers) [.create 1 (some 2) " Python " "Guitar" ""])
    { id := 1, requester_id := 1, receiver_id := 2, skill_offered := "Python",
      skill_wanted := "Guitar", message := "", acceptance_message := none,
      status := "pending" } rfl
  exact this.2.2.2.2.2.2.2 hu

/-! ### Characterizations of the skill operations -/

theorem create_skill_ok {st : AppState} {u : Nat} {nameArg descriptionArg categoryArg : String}
    {st' : AppState} {sk : Skill}
    (h : create_skill st u nameArg descriptionArg categoryArg = .ok (st', sk)) :
    st'.skills = st.skills ++ [sk] ∧ sk.status = "pending" ∧ sk.rejection_reason = none ∧
    sk.name = sanitize_string (pyStrip nameArg) (some 100) ∧
    sk.description = sanitize_string (pyStrip descriptionArg) (some 500) ∧
    sk.category = sanitize_string (pyStrip categoryArg) (some 50) ∧
    sk.created_by = u ∧ sk.id = st.nextSkillId ∧
    pyStrip nameArg ≠ "" ∧
    st.skills.find? (fun x => decide (x.name = pyStrip nameArg)) = none ∧
    (∀ x ∈ st.skills, x.name ≠ sk.name) ∧
    st'.users = st.users ∧ st'.requests = st.requests ∧
    st'.nextSkillId = st.nextSkillId + 1 := by
  simp only [create_skill] at h
  split at h
  · simp at h
  · rename_i hname
    split at h
    · simp at h
    · rename_i hfind
      split at h
      · simp at h
      · rename_i hcons
        obtain ⟨hst, hsk⟩ := by simpa using h
        subst hst hsk
        push_neg at hcons
        exact ⟨rfl, rfl, rfl, rfl, rfl, rfl, rfl, rfl, hname, hfind, hcons,
          rfl, rfl, rfl⟩

/-- The skill-edit endpoint is dead code beyond its guards: for the string
identities the route actually receives from the JWT layer, `update_skill`
always fails with NotFound or Forbidden and stores nothing. -/
theorem update_skill_string_identity_never_ok (st : AppState) (s : String)
    (sid : Nat) (nameArg descriptionArg categoryArg : Option String) :
    update_skill st (.pyStr s) sid nameArg descriptionArg categoryArg =
      .error .notFound ∨
    update_skill st (.pyStr s) sid nameArg descriptionArg categoryArg =
      .error .forbidden := by
  simp only [update_skill]
  split
  · exact Or.inl rfl
  · right
    rw [if_pos]
    simp [pyEq]

theorem approve_skill_ok {st : AppState} {sid : Nat} {st' : AppState} {sk' : Skill}
    (h : approve_skill st sid = .ok (st', sk')) :
    ∃ sk, st.skills.find? (fun x => decide (x.id = sid)) = some sk ∧
      sk' = { sk with status := "approved", rejection_reason := none } ∧
      st'.users = st.users ∧ st'.requests = st.requests ∧
      st'.skills = st.skills.map (fun x => if x.id = sid then sk' else x) := by
  simp only [approve_skill] at h
  split at h
  · simp at h
  · rename_i sk hfind
    obtain ⟨hst, hsk⟩ := by simpa using h
    subst hst hsk
    exact ⟨sk, hfind, rfl, rfl, rfl, rfl⟩

theorem reject_skill_ok {st : AppState} {sid : Nat} {reasonArg : Option String}
    {st' : AppState} {sk' : Skill}
    (h : reject_skill st sid reasonArg = .ok (st', sk')) :
    ∃ sk, st.skills.find? (fun x => decide (x.id = sid)) = some sk ∧
      pyStrip (reasonArg.getD "") ≠ "" ∧
      sk' = { sk with status := "rejected", rejection_reason := some (sanitize_string (pyStrip (reasonArg.getD "")) (some 500)) } ∧
      st'.users = st.users ∧ st'.requests = st.requests ∧
      st'.skills = st.skills.map (fun x => if x.id = sid then sk' else x) := by
  simp only [reject_skill] at h
  split at h
  · simp at h
  · rename_i hblank
    split at h
    · simp at h
    · rename_i sk hfind
      obtain ⟨hst, hsk⟩ := by simpa using h
      subst hst hsk
      exact ⟨sk, hfind, hblank, rfl, rfl, rfl, rfl⟩

/-- A client call against the skill routes. -/
inductive SkillOp
  | createS (user_id : Nat) (name description category : String)
  | updateS (user_id : PyScalar) (skill_id : Nat)
      (name? description? category? : Option String)
  | approveS (skill_id : Nat)
  | rejectS (skill_id : Nat) (reason? : Option String)

/-- Run one skill call; a failed call rolls back, leaving the store as it was. -/
def applySkillOp (st : AppState) (op : SkillOp) : AppState :=
  match op with
  | .createS u n d c =>
    match create_skill st u n d c with
    | .ok (st', _) => st'
    | .error _ => st
  | .updateS u i n? d? c? =>
    match update_skill st u i n? d? c? with
    | .ok (st', _) => st'
    | .error _ => st
  | .approveS i =>
    match approve_skill st i with
    | .ok (st', _) => st'
    | .error _ => st
  | .rejectS i r? =>
    match reject_skill st i r? with
    | .ok (st', _) => st'
    | .error _ => st

/-- A store holding one rejected skill created by user 7. -/
def rejectedSkill : Skill :=
  { id := 1, name := "Python", description := "", category := "",
    status := "rejected", rejection_reason := some "duplicate of python",
    created_by := 7 }

def c5State : AppState :=
  { users := demoUsers, requests := [], skills := [rejectedSkill],
    nextRequestId := 1, nextSkillId := 2 }

def c5Approved : Skill :=
  { rejectedSkill with status := "approved", rejection_reason := none }

/-- Claim C5, evaluated at the failing input (code bug): user 7, the creator
of skill 1 (`created_by = 7`), authenticated as JWT subject "7", edits their
own rejected skill; the claim (and the route's own docstring and 403 message,
which promise the creator can edit) requires the edit to succeed, reset the
status to `pending` and clear `rejection_reason`. The code instead answers
Forbidden and leaves the skill rejected with its reason, because the creator
guard compares the int column with the string identity. The Approve half of
the claim does hold: approving the skill clears the reason (last conjuncts). -/
theorem C5_edit_rejected_by_guard :
    update_skill c5State (.pyStr "7") 1 (some "Python3") none none =
      .error .forbidden ∧
    rejectedSkill.created_by = 7 ∧ rejectedSkill.status = "rejected" ∧
    rejectedSkill.rejection_reason ≠ none ∧
    applySkillOp c5State (.updateS (.pyStr "7") 1 (some "Python3") none none) =
      c5State ∧
    approve_skill c5State 1 =
      .ok ({ c5State with skills := [c5Approved] }, c5Approved) ∧
    c5Approved.status = "approved" ∧ c5Approved.rejection_reason = none := by
  refine ⟨rfl, rfl, rfl, by decide, rfl, rfl, rfl, rfl⟩

/-- Claim C6: rejecting with a reason that is empty or blank after trimming
fails InvalidArgument and leaves the store unchanged; with a non-blank reason
and an existing skill, Reject succeeds, and any successful Reject stores
status `rejected` together with the trimmed, 500-capped reason. -/
theorem C6_reject_reason (st : AppState) (sid : Nat) (reasonArg : Option String) :
    (pyStrip (reasonArg.getD "") = "" →
      reject_skill st sid reasonArg = .error .invalidArgument ∧
      applySkillOp st (.rejectS sid reasonArg) = st) ∧
    (pyStrip (reasonArg.getD "") ≠ "" →
      ∀ sk, st.skills.find? (fun x => decide (x.id = sid)) = some sk →
        (reject_skill st sid reasonArg).isOk = true) ∧
    (∀ st' sk', reject_skill st sid reasonArg = .ok (st', sk') →
      sk'.status = "rejected" ∧
      sk'.rejection_reason =
        some (sanitize_string (pyStrip (reasonArg.getD "")) (some 500)) ∧
      sk' ∈ st'.skills) := by
  refine ⟨?_, ?_, ?_⟩
  · intro hblank
    have herr : reject_skill st sid reasonArg = .error .invalidArgument := by
      simp [reject_skill, hblank]
    exact ⟨herr, by simp [applySkillOp, herr]⟩
  · intro hblank sk hfind
    simp [reject_skill, hblank, hfind, Except.isOk, Except.toBool]
  · intro st' sk' h
    obtain ⟨sk, hfind, _, hsk', _, _, hskills⟩ := reject_skill_ok h
    have hskid : sk.id = sid := by simpa using List.find?_some hfind
    have hmem : sk ∈ st.skills := List.mem_of_find?_eq_some hfind
    refine ⟨by rw [hsk'], by rw [hsk'], ?_⟩
    rw [hskills]
    exact List.mem_map.mpr ⟨sk, hmem, by simp [hskid]⟩

/-- A store holding one pending skill, used only to instantiate C6. -/
def c6Skill : Skill :=
  { id := 1, name := "Docker", description := "", category := "",
    status := "pending", rejection_reason := none, created_by := 3 }

def c6State : AppState :=
  { users := demoUsers, requests := [], skills := [c6Skill],
    nextRequestId := 1, nextSkillId := 2 }

def c6Rejected : Skill :=
  { c6Skill with status := "rejected", rejection_reason := some "too vague" }

theorem C6_reject_reason_witness :
    (reject_skill c6State 1 (some "   ") = .error .invalidArgument ∧
      applySkillOp c6State (.rejectS 1 (some "   ")) = c6State) ∧
    (c6Rejected.status = "rejected" ∧
      c6Rejected.rejection_reason =
        some (sanitize_string (pyStrip ((some " too vague ").getD "")) (some 500)) ∧
      c6Rejected ∈ ({ c6State with skills := [c6Rejected] } : AppState).skills) :=
  ⟨(C6_reject_reason c6State 1 (some "   ")).1 rfl,
   (C6_reject_reason c6State 1 (some " too vague ")).2.2
     { c6State with skills := [c6Rejected] } c6Rejected rfl⟩

/-! ### Claim C7: global uniqueness of skill names -/

/-- No two rows of the `skills` table share a name. -/
def NamesUnique (l : List Skill) : Prop := l.Pairwise (fun a b => a.name ≠ b.name)

/-- Claim C7 (amended): restricted to proposals whose trimmed name fits the
100-character column, Propose fails with Conflict exactly when a skill with
that name already exists (in any status); otherwise it appends one new
`pending` skill with that name and preserves global uniqueness of names. -/
theorem C7_unique_names (st : AppState) (u : Nat) (nameArg dArg cArg : String)
    (hlen : pyLen (pyStrip nameArg) ≤ 100) :
    ((∃ sk ∈ st.skills, sk.name = pyStrip nameArg) → pyStrip nameArg ≠ "" →
      create_skill st u nameArg dArg cArg = .error .conflict) ∧
    (∀ st' sk, create_skill st u nameArg dArg cArg = .ok (st', sk) →
      st'.skills = st.skills ++ [sk] ∧ sk.status = "pending" ∧
      sk.name = pyStrip nameArg ∧
      (¬ ∃ x ∈ st.skills, x.name = pyStrip nameArg) ∧
      (NamesUnique st.skills → NamesUnique st'.skills)) := by
  constructor
  · intro hex hne
    have hfs : (st.skills.find? (fun x => decide (x.name = pyStrip nameArg))).isSome := by
      rw [List.find?_isSome]
      obtain ⟨sk, hsk, hn⟩ := hex
      exact ⟨sk, hsk, by simp [hn]⟩
    obtain ⟨sk0, hsk0⟩ := Option.isSome_iff_exists.mp hfs
    simp [create_skill, hne, hsk0]
  · intro st' sk h
    obtain ⟨hskills, hstat, _, hname, _, _, _, _, _, hfind, hcons, _⟩ := create_skill_ok h
    have hname' : sk.name = pyStrip nameArg := by
      rw [hname]
      exact sanitize_string_of_short hlen (by decide)
    refine ⟨hskills, hstat, hname', ?_, ?_⟩
    · rintro ⟨x, hx, hxn⟩
      have := List.find?_eq_none.mp hfind x hx
      simp [hxn] at this
    · intro huniq
      rw [hskills, NamesUnique, List.pairwise_append]
      refine ⟨huniq, List.pairwise_singleton _ _, ?_⟩
      intro a ha b hb
      rcases List.mem_singleton.mp hb with rfl
      exact hcons a ha

/-- A 101-character proposed name and the 100-character stored form. -/
def longName : String := ⟨List.replicate 101 'b'⟩

def c7Skill : Skill :=
  { id := 1, name := ⟨List.replicate 100 'b'⟩, description := "", category := "",
    status := "approved", rejection_reason := none, created_by := 1 }

def c7State : AppState :=
  { users := demoUsers, requests := [], skills := [c7Skill],
    nextRequestId := 1, nextSkillId := 2 }

/-- Claim C7 counterexample: with a 101-character name, no skill with the
exact (trimmed) proposed name exists, so the claim requires a successful
creation in `pending`; but the stored 100-character truncation collides with
an existing row's name, the UNIQUE constraint on `skills.name` fires at
commit, and the call fails with an internal error — neither Conflict nor a
successful creation. -/
theorem C7_counterexample :
    create_skill c7State 1 longName "" "" = .error .internalError ∧
    c7State.skills = [c7Skill] ∧ c7Skill.name ≠ pyStrip longName ∧
    ApiError.internalError ≠ ApiError.conflict := by
  refine ⟨rfl, rfl, by decide, by decide⟩

def c7New : Skill :=
  { id := 1, name := "Python", description := "", category := "",
    status := "pending", rejection_reason := none, created_by := 1 }

theorem C7_unique_names_witness :
    ({ initState demoUsers with skills := [c7New], nextSkillId := 2 } : AppState).skills =
      (initState demoUsers).skills ++ [c7New] ∧
    c7New.status = "pending" ∧
    c7New.name = pyStrip " Python " ∧
    (¬ ∃ x ∈ (initState demoUsers).skills, x.name = pyStrip " Python ") ∧
    (NamesUnique (initState demoUsers).skills → NamesUnique [c7New]) := by
  have h := (C7_unique_names (initState demoUsers) 1 " Python " "" "" (by decide)).2
    { initState demoUsers with skills := [c7New], nextSkillId := 2 } c7New rfl
  exact h

/-! ### Claim C8: trimming and capping of stored strings -/

/-- `sanitize_string` applied to an already-stripped string is exactly
trim-then-truncate. -/
theorem sanitize_strip_eq {n : Nat} (hn : n ≠ 0) (s : String) :
    sanitize_string (pyStrip s) (some n) = pyTake (pyStrip s) n := by
  rw [sanitize_string_eq_take hn, pyStrip_idem]

/-- Claim C8: every string a create or update operation stores is the raw
input trimmed of surrounding whitespace and truncated to the documented cap
(skill name and swap skill strings 100, description, message, acceptance
message and rejection reason 500, category 50); no operation rejects an
over-long input. The skill-edit endpoint stores nothing at all for the
string identities the route receives — its type-confused creator guard fails
every call with NotFound or Forbidden (third conjunct, cf. claim C5) — so
the trim-and-cap policy is carried entirely by the four reachable write
paths, which the remaining conjuncts characterize for inputs of arbitrary
length. -/
theorem C8_trim_and_cap :
    (∀ (st : AppState) (u : Nat) (rid : Option Nat) (so sw m : String)
        (st' : AppState) (r : SwapRequest),
      create_swap_request st u rid so sw m = .ok (st', r) →
      r.skill_offered = pyTake (pyStrip so) 100 ∧
      r.skill_wanted = pyTake (pyStrip sw) 100 ∧
      r.message = pyTake (pyStrip m) 500) ∧
    (∀ (st : AppState) (u : Nat) (n d c : String) (st' : AppState) (sk : Skill),
      create_skill st u n d c = .ok (st', sk) →
      sk.name = pyTake (pyStrip n) 100 ∧
      sk.description = pyTake (pyStrip d) 500 ∧
      sk.category = pyTake (pyStrip c) 50) ∧
    (∀ (st : AppState) (s : String) (sid : Nat) (n? d? c? : Option String),
      update_skill st (.pyStr s) sid n? d? c? = .error .notFound ∨
      update_skill st (.pyStr s) sid n? d? c? = .error .forbidden) ∧
    (∀ (st : AppState) (u i : Nat) (sArg : Option String) (am : String)
        (st' : AppState) (r' : SwapRequest),
      update_swap_request st u i sArg am = .ok (st', r') →
      (sArg = some "accepted" ∨ sArg = some "rejected") → pyStrip am ≠ "" →
      r'.acceptance_message = some (pyTake (pyStrip am) 500)) ∧
    (∀ (st : AppState) (sid : Nat) (rArg : Option String)
        (st' : AppState) (sk' : Skill),
      reject_skill st sid rArg = .ok (st', sk') →
      sk'.rejection_reason = some (pyTake (pyStrip (rArg.getD "")) 500)) := by
  refine ⟨?_, ?_, ?_, ?_, ?_⟩
  · intro st u rid so sw m st' r h
    obtain ⟨_, _, _, _, _, _, _, _, hso, hsw, hm, _⟩ := create_swap_request_ok h
    exact ⟨by rw [hso, sanitize_strip_eq (by decide)],
      by rw [hsw, sanitize_strip_eq (by decide)],
      by rw [hm, sanitize_strip_eq (by decide)]⟩
  · intro st u n d c st' sk h
    obtain ⟨_, _, _, hn, hd, hc, _⟩ := create_skill_ok h
    exact ⟨by rw [hn, sanitize_strip_eq (by decide)],
      by rw [hd, sanitize_strip_eq (by decide)],
      by rw [hc, sanitize_strip_eq (by decide)]⟩
  · intro st s sid n? d? c?
    exact update_skill_string_identity_never_ok st s sid n? d? c?
  · intro st u i sArg am st' r' h hs hne
    obtain ⟨r, _, _, _, _, _, _, _, _, _, _, _, _, hacc, _⟩ := update_swap_request_ok h
    rw [hacc]
    rcases hs with hs | hs <;> subst hs <;>
      simp [hne, sanitize_strip_eq (by decide : (500 : Nat) ≠ 0)]
  · intro st sid rArg st' sk' h
    obtain ⟨sk, _, _, hsk', _⟩ := reject_skill_ok h
    rw [hsk']
    simp [sanitize_strip_eq (by decide : (500 : Nat) ≠ 0)]

/-- A 150-character raw input whose stored form is the 100-character cut. -/
def longOffered : String := ⟨List.replicate 150 'c'⟩

def c8New : SwapRequest :=
  { id := 1, requester_id := 1, receiver_id := 2,
    skill_offered := ⟨List.replicate 100 'c'⟩, skill_wanted := "x",
    message := "", acceptance_message := none, status := "pending" }

set_option maxRecDepth 4000 in
theorem C8_trim_and_cap_witness :
    (c8New.skill_offered = pyTake (pyStrip longOffered) 100 ∧
      c8New.skill_wanted = pyTake (pyStrip "x") 100 ∧
      c8New.message = pyTake (pyStrip "") 500) ∧
    (update_skill c6State (.pyStr "3") 1 (some "Podman") none none =
        .error .notFound ∨
      update_skill c6State (.pyStr "3") 1 (some "Podman") none none =
        .error .forbidden) :=
  ⟨C8_trim_and_cap.1 (initState demoUsers) 1 (some 2) longOffered "x" ""
      { initState demoUsers with requests := [c8New], nextRequestId := 2 } c8New rfl,
   C8_trim_and_cap.2.2.1 c6State "3" 1 (some "Podman") none none⟩

/-! ### Claim C10: non-approved skills are invisible to the public read -/

/-- Claim C10: the single-skill read filters on `status == approved` inside
the query and takes no caller identity at all (the route is unauthenticated),
so a skill whose status is `pending` or `rejected` yields NotFound for every
caller, including its creator. -/
theorem C10_nonapproved_hidden (st : AppState) (sid : Nat)
    (h : ∀ sk ∈ st.skills, sk.id = sid →
      sk.status = "pending" ∨ sk.status = "rejected") :
    get_skill_by_id st sid = .error .notFound := by
  have hfind : st.skills.find?
      (fun sk => decide (sk.id = sid ∧ sk.status = "approved")) = none := by
    rw [List.find?_eq_none]
    intro x hx hc
    simp only [decide_eq_true_eq] at hc
    obtain ⟨hid, happ⟩ := hc
    rcases h x hx hid with h' | h' <;> rw [h'] at happ <;> exact absurd happ (by decide)
  have hfind' : st.skills.find?
      (fun sk => decide (sk.id = sid) && decide (sk.status = "approved")) = none := by
    simpa using hfind
  simp [get_skill_by_id, hfind']

def c10State : AppState :=
  { users := demoUsers, requests := [],
    skills := [{ c7New with created_by := 1 }],
    nextRequestId := 1, nextSkillId := 2 }

theorem C10_nonapproved_hidden_witness :
    get_skill_by_id c10State 1 = .error .notFound :=
  C10_nonapproved_hidden c10State 1 (by decide)

end SkillSwap
